import Mathlib

/-!
Verification of the box-editing and crop-export engine of the cookie-voting
review component (CropReview.tsx).

All numeric values are modelled as exact rationals: the source manipulates
JS numbers with additions, subtractions, multiplications, divisions by
constant dimensions, min, max and abs, and every property below is stated
about the exact arithmetic the source expresses.  Field order of
BoundingBox follows the source interface (ymin, xmin, ymax, xmax).
-/

namespace CookieVote

/-- The BoundingBox interface of types.ts: normalized coordinates in the
0 to 1000 space, listed in source order ymin, xmin, ymax, xmax. -/
structure BoundingBox where
  ymin : ℚ
  xmin : ℚ
  ymax : ℚ
  xmax : ℚ
  deriving DecidableEq

/-- The image surface (imgRef.current) reduced to the data the engine
reads: naturalWidth and naturalHeight in pixels. -/
structure ImageSurface where
  naturalWidth : ℚ
  naturalHeight : ℚ
  deriving DecidableEq

/-- DragMode type of CropReview.tsx. -/
inductive DragMode where
  | none
  | move
  | resize
  deriving DecidableEq

/-- HandlePosition type of CropReview.tsx. -/
inductive HandlePosition where
  | nw
  | ne
  | sw
  | se
  deriving DecidableEq

/-- dragHandle.includes('w') of the source. -/
def HandlePosition.includesW : HandlePosition → Bool
  | .nw => true
  | .sw => true
  | _ => false

/-- dragHandle.includes('e') of the source. -/
def HandlePosition.includesE : HandlePosition → Bool
  | .ne => true
  | .se => true
  | _ => false

/-- dragHandle.includes('n') of the source. -/
def HandlePosition.includesN : HandlePosition → Bool
  | .nw => true
  | .ne => true
  | _ => false

/-- dragHandle.includes('s') of the source. -/
def HandlePosition.includesS : HandlePosition → Bool
  | .sw => true
  | .se => true
  | _ => false

/-- normToPixel of CropReview.tsx: (val / 1000) * max. -/
def normToPixel (val maxDim : ℚ) : ℚ := val / 1000 * maxDim

/-- pixelToNorm of CropReview.tsx: (val / max) * 1000. -/
def pixelToNorm (val maxDim : ℚ) : ℚ := val / maxDim * 1000

/-- Math.max(0, Math.min(1000, v)), the clamp applied during moves and to
the pointer position during resizes. -/
def clamp1000 (v : ℚ) : ℚ := max 0 (min 1000 v)

/-- The move branch of handleMouseMove: clamp each translated coordinate to
the 0 to 1000 range, then restore the original width and height when a
coordinate landed on a boundary, in the exact statement order of the
source (xmax fixed from xmin, then xmin fixed from the updated xmax, then
the same for y). -/
def moveBox (box : BoundingBox) (dx dy : ℚ) : BoundingBox :=
  let w := box.xmax - box.xmin
  let h := box.ymax - box.ymin
  let xmin1 := clamp1000 (box.xmin + dx)
  let ymin1 := clamp1000 (box.ymin + dy)
  let xmax1 := clamp1000 (box.xmax + dx)
  let ymax1 := clamp1000 (box.ymax + dy)
  let xmax2 := if xmin1 = 0 then w else xmax1
  let xmin2 := if xmax2 = 1000 then 1000 - w else xmin1
  let ymax2 := if ymin1 = 0 then h else ymax1
  let ymin2 := if ymax2 = 1000 then 1000 - h else ymin1
  ⟨ymin2, xmin2, ymax2, xmax2⟩

/-- The resize branch of handleMouseMove: each edge named by the handle is
set to the clamped normalized pointer position, floored at 50 units from
the opposite edge, in the exact statement order of the source. -/
def resizeBox (box : BoundingBox) (h : HandlePosition) (normX normY : ℚ) : BoundingBox :=
  let b1 := if h.includesW then { box with xmin := min normX (box.xmax - 50) } else box
  let b2 := if h.includesE then { b1 with xmax := max normX (b1.xmin + 50) } else b1
  let b3 := if h.includesN then { b2 with ymin := min normY (b2.ymax - 50) } else b2
  let b4 := if h.includesS then { b3 with ymax := max normY (b3.ymin + 50) } else b3
  b4

/-- getHandleHit of CropReview.tsx, over the box it reads at boxIdx: the
corner handles of the box are tested in the order nw, ne, sw, se, each hit
when the pointer is strictly within tol of the corner on both axes, with
tol = (canvas.width / 1000) * 40 used on both axes. -/
def getHandleHit (canvasW canvasH : ℚ) (box : BoundingBox) (x y : ℚ) : Option HandlePosition :=
  let bx := normToPixel box.xmin canvasW
  let byv := normToPixel box.ymin canvasH
  let bw := normToPixel (box.xmax - box.xmin) canvasW
  let bh := normToPixel (box.ymax - box.ymin) canvasH
  let tol := canvasW / 1000 * 40
  if |x - bx| < tol ∧ |y - byv| < tol then some HandlePosition.nw
  else if |x - (bx + bw)| < tol ∧ |y - byv| < tol then some HandlePosition.ne
  else if |x - bx| < tol ∧ |y - (byv + bh)| < tol then some HandlePosition.sw
  else if |x - (bx + bw)| < tol ∧ |y - (byv + bh)| < tol then some HandlePosition.se
  else none

/-- The body containment test of handleMouseDown: the pointer lies inside
the pixel rectangle of the box with inclusive bounds. -/
def containsPt (canvasW canvasH x y : ℚ) (box : BoundingBox) : Prop :=
  normToPixel box.xmin canvasW ≤ x ∧
  x ≤ normToPixel box.xmin canvasW + normToPixel (box.xmax - box.xmin) canvasW ∧
  normToPixel box.ymin canvasH ≤ y ∧
  y ≤ normToPixel box.ymin canvasH + normToPixel (box.ymax - box.ymin) canvasH

instance (canvasW canvasH x y : ℚ) (box : BoundingBox) :
    Decidable (containsPt canvasW canvasH x y box) := by
  unfold containsPt
  infer_instance

/-- The backwards loop of handleMouseDown: indices n-1 down to 0 are
tested and the first box containing the pointer is returned. -/
def bodyHitAux (canvasW canvasH x y : ℚ) (boxes : List BoundingBox) : ℕ → Option ℕ
  | 0 => none
  | n + 1 =>
      match boxes[n]? with
      | some box =>
          if containsPt canvasW canvasH x y box then some n
          else bodyHitAux canvasW canvasH x y boxes n
      | none => bodyHitAux canvasW canvasH x y boxes n

/-- Body hit test of handleMouseDown: iterate the collection from the last
index down to 0 and return the first (topmost) box containing the pointer. -/
def bodyHit (canvasW canvasH x y : ℚ) (boxes : List BoundingBox) : Option ℕ :=
  bodyHitAux canvasW canvasH x y boxes boxes.length

/-- The mutable state of the CropReview component that the pointer and
collection handlers read and write. -/
structure EditorState where
  boxes : List BoundingBox
  selectedIndex : Option ℕ
  selectedCategoryId : String
  dragMode : DragMode
  dragHandle : Option HandlePosition
  isDragging : Bool
  dragStart : ℚ × ℚ

/-- handleMouseDown of CropReview.tsx: first the corner handles of the
currently selected box (starting a resize on a hit), then the box bodies
from topmost to bottom (selecting and starting a move), else clearing the
selection.  An out-of-range selected index aborts in the source before any
state update; it is modelled as the identity. -/
def handleMouseDown (canvasW canvasH x y : ℚ) (s : EditorState) : EditorState :=
  let handleRes : Option HandlePosition :=
    match s.selectedIndex with
    | some i =>
        match s.boxes[i]? with
        | some box => getHandleHit canvasW canvasH box x y
        | none => none
    | none => none
  match handleRes with
  | some h =>
      { s with dragMode := DragMode.resize, dragHandle := some h, isDragging := true }
  | none =>
      match bodyHit canvasW canvasH x y s.boxes with
      | some i =>
          { s with selectedIndex := some i, dragMode := DragMode.move,
                   isDragging := true, dragStart := (x, y) }
      | none => { s with selectedIndex := none }

/-- handleMouseMove of CropReview.tsx: ignored unless a drag is active with
a selection; in move mode the selected box is translated by the normalized
delta since the previous move and the drag start is reset; in resize mode
the selected box is resized toward the clamped normalized pointer.  An
out-of-range selected index aborts in the source before any state update;
it is modelled as the identity. -/
def handleMouseMove (canvasW canvasH x y : ℚ) (s : EditorState) : EditorState :=
  if s.isDragging = false then s else
  match s.selectedIndex with
  | none => s
  | some i =>
      match s.boxes[i]? with
      | none => s
      | some currentBox =>
          match s.dragMode with
          | DragMode.move =>
              let dx := pixelToNorm (x - s.dragStart.1) canvasW
              let dy := pixelToNorm (y - s.dragStart.2) canvasH
              { s with boxes := s.boxes.set i (moveBox currentBox dx dy),
                       dragStart := (x, y) }
          | DragMode.resize =>
              match s.dragHandle with
              | some h =>
                  let normX := clamp1000 (pixelToNorm x canvasW)
                  let normY := clamp1000 (pixelToNorm y canvasH)
                  { s with boxes := s.boxes.set i (resizeBox currentBox h normX normY) }
              | none => s
          | DragMode.none => s

/-- handleAddBox of CropReview.tsx: append the fixed 200 by 200 box at the
center and select it. -/
def handleAddBox (s : EditorState) : EditorState :=
  { s with boxes := s.boxes ++ [⟨400, 400, 600, 600⟩],
           selectedIndex := some s.boxes.length }

/-- handleDeleteBox of CropReview.tsx: remove the box at the selected
index (filter on index) and clear the selection; a no-op without a
selection. -/
def handleDeleteBox (s : EditorState) : EditorState :=
  match s.selectedIndex with
  | none => s
  | some i =>
      { s with boxes := (s.boxes.enum.filter (fun p => p.1 != i)).map (fun p => p.2),
               selectedIndex := none }

/-- The seeding of the editor box state from the Detector output:
useState(detectedBoxes) and the effect setBoxes(detectedBoxes).  The
source applies no validation, clamping or rejection to the incoming
boxes. -/
def initBoxes (detectedBoxes : List BoundingBox) : List BoundingBox := detectedBoxes

/-- The export padding of handleProcess: Math.max(20, naturalWidth / 100). -/
def cropPadding (img : ImageSurface) : ℚ := max 20 (img.naturalWidth / 100)

/-- A crop source rectangle: the sx, sy, sw, sh arguments the export hands
to drawImage, which are also the pixel dimensions of the emitted crop. -/
structure CropRegion where
  sx : ℚ
  sy : ℚ
  sw : ℚ
  sh : ℚ
  deriving DecidableEq

/-- The per-box region computation of handleProcess: origin at the padded
box origin clamped to 0, extent the padded size capped at the remaining
image extent. -/
def cropRegion (img : ImageSurface) (box : BoundingBox) : CropRegion :=
  let w := (box.xmax - box.xmin) / 1000 * img.naturalWidth
  let h := (box.ymax - box.ymin) / 1000 * img.naturalHeight
  let x := box.xmin / 1000 * img.naturalWidth
  let y := box.ymin / 1000 * img.naturalHeight
  let padding := cropPadding img
  let sx := max 0 (x - padding)
  let sy := max 0 (y - padding)
  let sw := min (img.naturalWidth - sx) (w + padding * 2)
  let sh := min (img.naturalHeight - sy) (h + padding * 2)
  ⟨sx, sy, sw, sh⟩

/-- The crop rectangle in the words of the specification, for comparison
with cropRegion: expand the pixel rectangle of the box symmetrically on
all sides by the padding, then clamp the expanded rectangle to the image
bounds (origin at least 0, far edge at most the image dimension). -/
def specCropRegion (img : ImageSurface) (box : BoundingBox) : CropRegion :=
  let w := (box.xmax - box.xmin) / 1000 * img.naturalWidth
  let h := (box.ymax - box.ymin) / 1000 * img.naturalHeight
  let x := box.xmin / 1000 * img.naturalWidth
  let y := box.ymin / 1000 * img.naturalHeight
  let padding := cropPadding img
  let sx := max 0 (x - padding)
  let sy := max 0 (y - padding)
  let ex := min img.naturalWidth (x + w + padding)
  let ey := min img.naturalHeight (y + h + padding)
  ⟨sx, sy, ex - sx, ey - sy⟩

/-- handleProcess of CropReview.tsx, as the value of the onConfirm call it
makes: none when the image surface is missing (the source returns before
emitting anything), else the crop regions in collection order paired with
the selected category id, where the empty string becomes null. -/
def handleProcess (img : Option ImageSurface) (boxes : List BoundingBox)
    (selectedCategoryId : String) : Option (List CropRegion × Option String) :=
  match img with
  | none => none
  | some im =>
      some (boxes.map (cropRegion im),
            if selectedCategoryId = "" then none else some selectedCategoryId)

/-- handleProcess as a transformer of the editor state: the source body
contains no state setter call, so the state passes through unchanged next
to the emitted output. -/
def handleProcessFull (img : Option ImageSurface) (s : EditorState) :
    EditorState × Option (List CropRegion × Option String) :=
  (s, handleProcess img s.boxes s.selectedCategoryId)

/-- Handle proximity in the words of the specification: the pointer lies
strictly within the tolerance (canvasW / 1000) * 40 of the corner named by
the handle, on both axes. -/
def handleHitTest (canvasW canvasH : ℚ) (box : BoundingBox) (x y : ℚ)
    (hp : HandlePosition) : Prop :=
  let bx := normToPixel box.xmin canvasW
  let byv := normToPixel box.ymin canvasH
  let bw := normToPixel (box.xmax - box.xmin) canvasW
  let bh := normToPixel (box.ymax - box.ymin) canvasH
  let tol := canvasW / 1000 * 40
  match hp with
  | HandlePosition.nw => |x - bx| < tol ∧ |y - byv| < tol
  | HandlePosition.ne => |x - (bx + bw)| < tol ∧ |y - byv| < tol
  | HandlePosition.sw => |x - bx| < tol ∧ |y - (byv + bh)| < tol
  | HandlePosition.se => |x - (bx + bw)| < tol ∧ |y - (byv + bh)| < tol

instance (canvasW canvasH : ℚ) (box : BoundingBox) (x y : ℚ) (hp : HandlePosition) :
    Decidable (handleHitTest canvasW canvasH box x y hp) := by
  unfold handleHitTest
  cases hp <;> exact inferInstance

/-- The box validity invariant the editing operations maintain: both
dimensions at least the 50-unit resize floor and all coordinates in the
0 to 1000 range. -/
def BoxInv (b : BoundingBox) : Prop :=
  0 ≤ b.xmin ∧ b.xmin + 50 ≤ b.xmax ∧ b.xmax ≤ 1000 ∧
  0 ≤ b.ymin ∧ b.ymin + 50 ≤ b.ymax ∧ b.ymax ≤ 1000

/-! Helper lemmas about the clamp. -/

theorem clamp1000_nonneg (v : ℚ) : 0 ≤ clamp1000 v := le_max_left 0 _

theorem clamp1000_le_top (v : ℚ) : clamp1000 v ≤ 1000 :=
  max_le (by norm_num) (min_le_left _ _)

theorem clamp1000_eq_zero_iff (v : ℚ) : clamp1000 v = 0 ↔ v ≤ 0 := by
  unfold clamp1000
  rcases le_total v 0 with h | h
  · rw [min_eq_right (by linarith), max_eq_left h]
    simp [h]
  · rcases le_total v 1000 with h1 | h1
    · rw [min_eq_right h1, max_eq_right h]
      constructor
      · intro hv
        exact le_of_eq hv
      · intro hv
        linarith [le_antisymm hv h]
    · rw [min_eq_left h1]
      norm_num
      linarith

theorem clamp1000_eq_top_iff (v : ℚ) : clamp1000 v = 1000 ↔ 1000 ≤ v := by
  unfold clamp1000
  rcases le_total 1000 v with h | h
  · rw [min_eq_left h, max_eq_right (by norm_num)]
    simp [h]
  · rw [min_eq_right h]
    constructor
    · intro hv
      rcases le_total v 0 with h0 | h0
      · rw [max_eq_left h0] at hv
        norm_num at hv
      · rw [max_eq_right h0] at hv
        exact le_of_eq hv.symm
    · intro hv
      rw [max_eq_right (by linarith)]
      linarith

theorem clamp1000_id (v : ℚ) (h0 : 0 ≤ v) (h1 : v ≤ 1000) : clamp1000 v = v := by
  unfold clamp1000
  rw [min_eq_right h1, max_eq_right h0]

/-! Helper lemmas about the move branch. -/

theorem moveBox_width (box : BoundingBox) (dx dy : ℚ) (hx : box.xmin ≤ box.xmax) :
    (moveBox box dx dy).xmax - (moveBox box dx dy).xmin = box.xmax - box.xmin := by
  simp only [moveBox]
  split_ifs with h1 h2 h2
  · linarith
  · rw [h1]
    ring
  · rw [h2]
    ring
  · have hmin : 0 < box.xmin + dx := by
      by_contra hc
      push_neg at hc
      exact h1 ((clamp1000_eq_zero_iff _).mpr hc)
    have hmax : box.xmax + dx < 1000 := by
      by_contra hc
      push_neg at hc
      exact h2 ((clamp1000_eq_top_iff _).mpr hc)
    rw [clamp1000_id (box.xmax + dx) (by linarith) (by linarith),
        clamp1000_id (box.xmin + dx) (by linarith) (by linarith)]
    ring

theorem moveBox_height (box : BoundingBox) (dx dy : ℚ) (hy : box.ymin ≤ box.ymax) :
    (moveBox box dx dy).ymax - (moveBox box dx dy).ymin = box.ymax - box.ymin := by
  simp only [moveBox]
  split_ifs with h1 h2 h2
  · linarith
  · rw [h1]
    ring
  · rw [h2]
    ring
  · have hmin : 0 < box.ymin + dy := by
      by_contra hc
      push_neg at hc
      exact h1 ((clamp1000_eq_zero_iff _).mpr hc)
    have hmax : box.ymax + dy < 1000 := by
      by_contra hc
      push_neg at hc
      exact h2 ((clamp1000_eq_top_iff _).mpr hc)
    rw [clamp1000_id (box.ymax + dy) (by linarith) (by linarith),
        clamp1000_id (box.ymin + dy) (by linarith) (by linarith)]
    ring

theorem moveBox_x_bounds (box : BoundingBox) (dx dy : ℚ)
    (hx0 : 0 ≤ box.xmin) (hx1 : box.xmax ≤ 1000) :
    0 ≤ (moveBox box dx dy).xmin ∧ (moveBox box dx dy).xmax ≤ 1000 := by
  simp only [moveBox]
  split_ifs with h1 h2 h2
  · constructor
    · linarith
    · linarith
  · exact ⟨clamp1000_nonneg _, by linarith⟩
  · exact ⟨by linarith, clamp1000_le_top _⟩
  · exact ⟨clamp1000_nonneg _, clamp1000_le_top _⟩

theorem moveBox_y_bounds (box : BoundingBox) (dx dy : ℚ)
    (hy0 : 0 ≤ box.ymin) (hy1 : box.ymax ≤ 1000) :
    0 ≤ (moveBox box dx dy).ymin ∧ (moveBox box dx dy).ymax ≤ 1000 := by
  simp only [moveBox]
  split_ifs with h1 h2 h2
  · constructor
    · linarith
    · linarith
  · exact ⟨clamp1000_nonneg _, by linarith⟩
  · exact ⟨by linarith, clamp1000_le_top _⟩
  · exact ⟨clamp1000_nonneg _, clamp1000_le_top _⟩

/-- moveBox preserves the size-and-range invariant. -/
theorem moveBox_boxInv (box : BoundingBox) (dx dy : ℚ) (hb : BoxInv box) :
    BoxInv (moveBox box dx dy) := by
  obtain ⟨hx0, hxw, hx1, hy0, hyw, hy1⟩ := hb
  have hwx := moveBox_width box dx dy (by linarith)
  have hwy := moveBox_height box dx dy (by linarith)
  have hbx := moveBox_x_bounds box dx dy hx0 hx1
  have hby := moveBox_y_bounds box dx dy hy0 hy1
  exact ⟨hbx.1, by linarith, hbx.2, hby.1, by linarith, hby.2⟩

/-- resizeBox preserves the size-and-range invariant whenever the pointer
position it is given lies in the clamped range. -/
theorem resizeBox_boxInv (box : BoundingBox) (h : HandlePosition) (normX normY : ℚ)
    (hb : BoxInv box) (hX0 : 0 ≤ normX) (hX1 : normX ≤ 1000)
    (hY0 : 0 ≤ normY) (hY1 : normY ≤ 1000) :
    BoxInv (resizeBox box h normX normY) := by
  obtain ⟨hx0, hxw, hx1, hy0, hyw, hy1⟩ := hb
  cases h <;>
    simp only [resizeBox, BoxInv, HandlePosition.includesW, HandlePosition.includesE,
      HandlePosition.includesN, HandlePosition.includesS, if_true, if_false,
      Bool.false_eq_true, ite_true, ite_false] <;>
    refine ⟨?_, ?_, ?_, ?_, ?_, ?_⟩ <;>
    linarith [min_le_right normX (box.xmax - 50),
      le_min hX0 (show (0 : ℚ) ≤ box.xmax - 50 by linarith),
      le_max_right normX (box.xmin + 50),
      max_le hX1 (show box.xmin + 50 ≤ (1000 : ℚ) by linarith),
      min_le_right normY (box.ymax - 50),
      le_min hY0 (show (0 : ℚ) ≤ box.ymax - 50 by linarith),
      le_max_right normY (box.ymin + 50),
      max_le hY1 (show box.ymin + 50 ≤ (1000 : ℚ) by linarith)]

/-- Reduction of handleMouseMove in an active move drag. -/
theorem handleMouseMove_move (canvasW canvasH x y : ℚ) (s : EditorState) (i : ℕ)
    (box : BoundingBox) (hdrag : s.isDragging = true) (hsel : s.selectedIndex = some i)
    (hbox : s.boxes[i]? = some box) (hmode : s.dragMode = DragMode.move) :
    handleMouseMove canvasW canvasH x y s =
      { s with
          boxes := s.boxes.set i (moveBox box (pixelToNorm (x - s.dragStart.1) canvasW)
            (pixelToNorm (y - s.dragStart.2) canvasH)),
          dragStart := (x, y) } := by
  simp only [handleMouseMove, hdrag, hsel, hbox, hmode]
  simp

/-- Reduction of handleMouseMove in an active resize drag. -/
theorem handleMouseMove_resize (canvasW canvasH x y : ℚ) (s : EditorState) (i : ℕ)
    (box : BoundingBox) (h : HandlePosition) (hdrag : s.isDragging = true)
    (hsel : s.selectedIndex = some i) (hbox : s.boxes[i]? = some box)
    (hmode : s.dragMode = DragMode.resize) (hhandle : s.dragHandle = some h) :
    handleMouseMove canvasW canvasH x y s =
      { s with
          boxes := s.boxes.set i (resizeBox box h (clamp1000 (pixelToNorm x canvasW))
            (clamp1000 (pixelToNorm y canvasH))) } := by
  simp only [handleMouseMove, hdrag, hsel, hbox, hmode, hhandle]
  simp

/-- Every box of a list obtained by filtering the enumerated list is a box
of the original list. -/
theorem mem_of_filter_enum {α : Type} (l : List α) (i : ℕ) (b : α)
    (h : b ∈ (l.enum.filter (fun p => p.1 != i)).map (fun p => p.2)) : b ∈ l := by
  obtain ⟨p, hp, hpb⟩ := List.mem_map.mp h
  have hpe := (List.mem_filter.mp hp).1
  have hget := List.mem_enum_iff_getElem?.mp hpe
  subst hpb
  exact List.getElem?_mem hget

/-- The backwards loop returns exactly the greatest index below its fuel
whose box contains the pointer. -/
theorem bodyHitAux_eq_some (canvasW canvasH x y : ℚ) (boxes : List BoundingBox) :
    ∀ n, n ≤ boxes.length → ∀ j,
      (bodyHitAux canvasW canvasH x y boxes n = some j ↔
        j < n ∧ (∃ b, boxes[j]? = some b ∧ containsPt canvasW canvasH x y b) ∧
        ∀ k, j < k → k < n → ∀ b, boxes[k]? = some b →
          ¬ containsPt canvasW canvasH x y b) := by
  intro n
  induction n with
  | zero =>
      intro _ j
      simp [bodyHitAux]
  | succ n ih =>
      intro hn j
      have hlt : n < boxes.length := hn
      have hb : boxes[n]? = some boxes[n] := List.getElem?_eq_getElem hlt
      unfold bodyHitAux
      rw [hb]
      by_cases hc : containsPt canvasW canvasH x y boxes[n]
      · simp only [hc, if_true]
        constructor
        · intro h
          have hj : n = j := by injection h
          subst hj
          refine ⟨Nat.lt_succ_self n, ⟨boxes[n], hb, hc⟩, ?_⟩
          intro k hk1 hk2
          omega
        · rintro ⟨hjn, ⟨bj, hbj, hcj⟩, hmax⟩
          rcases Nat.lt_succ_iff_lt_or_eq.mp hjn with hcase | hcase
          · exact absurd hc (hmax n hcase (Nat.lt_succ_self n) boxes[n] hb)
          · subst hcase
            rfl
      · simp only [hc, if_false]
        rw [ih (le_of_lt hlt) j]
        constructor
        · rintro ⟨hjn, hex, hmax⟩
          refine ⟨Nat.lt_succ_of_lt hjn, hex, ?_⟩
          intro k hk1 hk2 b2 hb2
          rcases Nat.lt_succ_iff_lt_or_eq.mp hk2 with hcase | hcase
          · exact hmax k hk1 hcase b2 hb2
          · subst hcase
            rw [hb] at hb2
            have : boxes[k] = b2 := by injection hb2
            rw [← this]
            exact hc
        · rintro ⟨hjn, hex, hmax⟩
          have hjn2 : j < n := by
            rcases Nat.lt_succ_iff_lt_or_eq.mp hjn with hcase | hcase
            · exact hcase
            · subst hcase
              obtain ⟨bj, hbj, hcj⟩ := hex
              rw [hb] at hbj
              have : boxes[j] = bj := by injection hbj
              rw [← this] at hcj
              exact absurd hcj hc
          refine ⟨hjn2, hex, ?_⟩
          intro k hk1 hk2
          exact hmax k hk1 (Nat.lt_succ_of_lt hk2)

/-- The body hit test returns exactly the greatest (topmost) index whose
box contains the pointer. -/
theorem bodyHit_eq_some (canvasW canvasH x y : ℚ) (boxes : List BoundingBox) (j : ℕ) :
    bodyHit canvasW canvasH x y boxes = some j ↔
      j < boxes.length ∧
      (∃ b, boxes[j]? = some b ∧ containsPt canvasW canvasH x y b) ∧
      ∀ k, j < k → k < boxes.length → ∀ b, boxes[k]? = some b →
        ¬ containsPt canvasW canvasH x y b :=
  bodyHitAux_eq_some canvasW canvasH x y boxes boxes.length le_rfl j

/-- The if-chain of getHandleHit is the first match of the proximity test
over the handle order nw, ne, sw, se. -/
theorem getHandleHit_eq_find (canvasW canvasH : ℚ) (box : BoundingBox) (x y : ℚ) :
    getHandleHit canvasW canvasH box x y =
      [HandlePosition.nw, HandlePosition.ne, HandlePosition.sw, HandlePosition.se].find?
        (fun hp => decide (handleHitTest canvasW canvasH box x y hp)) := by
  by_cases ha : |x - normToPixel box.xmin canvasW| < canvasW / 1000 * 40 <;>
    by_cases hb : |x - (normToPixel box.xmin canvasW +
        normToPixel (box.xmax - box.xmin) canvasW)| < canvasW / 1000 * 40 <;>
      by_cases hc : |y - normToPixel box.ymin canvasH| < canvasW / 1000 * 40 <;>
        by_cases hd : |y - (normToPixel box.ymin canvasH +
            normToPixel (box.ymax - box.ymin) canvasH)| < canvasW / 1000 * 40 <;>
          simp [getHandleHit, handleHitTest, List.find?, ha, hb, hc, hd]

theorem add_min_sub (a b c : ℚ) : a + min (b - a) c = min b (a + c) := by
  rcases le_total (b - a) c with h | h
  · rw [min_eq_left h, min_eq_left (by linarith)]
    ring
  · rw [min_eq_right h, min_eq_right (by linarith)]

/-! Claim theorems. -/

/-- Claim C8: with the image surface missing at confirm time the export
call returns without reaching the host: handleProcess emits nothing at
all, in particular no empty or garbage crop sequence. -/
theorem c8_missing_image_fails (boxes : List BoundingBox) (cat : String) :
    handleProcess none boxes cat = none := rfl

/-- Claim C9: the export is read-only over the editor state: the state
component of the export transformer is the unchanged input state for every
image and editor state, and the emitted value is computed from the box
collection and the chosen category id alone. -/
theorem c9_export_read_only (img : Option ImageSurface) (s : EditorState) :
    (handleProcessFull img s).1 = s ∧
    (handleProcessFull img s).2 = handleProcess img s.boxes s.selectedCategoryId :=
  ⟨rfl, rfl⟩

/-- Claim C4 is violated by the code: the editor seeds its box collection
verbatim from the Detector output, so a degenerate box with inverted x
coordinates (xmin 300, xmax 100) is stored unchanged instead of being
clamped into the valid range. -/
theorem c4_no_defensive_clamp :
    initBoxes [⟨100, 300, 300, 100⟩] = [⟨100, 300, 300, 100⟩] ∧
    ¬ ((⟨100, 300, 300, 100⟩ : BoundingBox).xmin <
        (⟨100, 300, 300, 100⟩ : BoundingBox).xmax) := by
  refine ⟨rfl, ?_⟩
  norm_num

/-- Claim C2 is falsified at its own scenario: on the 1000 by 1000 image
with the single box xmin 100, ymin 100, xmax 300, ymax 300 and no chosen
category, the emitted crop region is exactly x from 80 to 320 and y from
80 to 320 (padding 20 applied to the 100 to 300 pixel interval), so the
crop begins strictly left of the claimed 90 and ends strictly right of
the claimed 310. -/
theorem c2_counterexample :
    handleProcess (some ⟨1000, 1000⟩) [⟨100, 100, 300, 300⟩] "" =
      some ([⟨80, 80, 240, 240⟩], none) ∧
    (80 : ℚ) < 90 ∧ (310 : ℚ) < 80 + 240 := by
  refine ⟨?_, by norm_num, by norm_num⟩
  simp only [handleProcess, List.map]
  norm_num [cropRegion, cropPadding]

/-- Claim C2 amended: the scenario produces exactly one crop, its pixel
region is exactly x in the interval 80 to 320 and y in the interval 80 to
320 (padding 20, applied as origin minus padding and size plus twice the
padding), and the category id handed to the host is null. -/
theorem c2_amended_scenario :
    handleProcess (some ⟨1000, 1000⟩) [⟨100, 100, 300, 300⟩] "" =
      some ([⟨80, 80, 240, 240⟩], none) ∧
    (80 : ℚ) + 240 = 320 := by
  refine ⟨?_, by norm_num⟩
  simp only [handleProcess, List.map]
  norm_num [cropRegion, cropPadding]

/-- Claim C1 is falsified when the origin clamp engages: for the box with
xmin 0, xmax 100 on a 1000 by 1000 image (padding 20), the exported crop
is 140 pixels wide (the full padded width kept by extending to the
right), while the symmetric expand-then-clamp rectangle of the claim is
only 120 pixels wide. -/
theorem c1_counterexample :
    handleProcess (some ⟨1000, 1000⟩) [⟨100, 0, 300, 100⟩] "" =
      some ([cropRegion ⟨1000, 1000⟩ ⟨100, 0, 300, 100⟩], none) ∧
    cropRegion ⟨1000, 1000⟩ ⟨100, 0, 300, 100⟩ ≠
      specCropRegion ⟨1000, 1000⟩ ⟨100, 0, 300, 100⟩ ∧
    (cropRegion ⟨1000, 1000⟩ ⟨100, 0, 300, 100⟩).sw = 140 ∧
    (specCropRegion ⟨1000, 1000⟩ ⟨100, 0, 300, 100⟩).sw = 120 := by
  refine ⟨rfl, ?_, ?_, ?_⟩
  · norm_num [cropRegion, specCropRegion, cropPadding, CropRegion.mk.injEq]
  · norm_num [cropRegion, cropPadding]
  · norm_num [specCropRegion, cropPadding]

/-- Claim C1 amended: crops are emitted in box-collection order, one per
box; each crop region has origin max(0, box origin minus padding) per
axis with padding max(20, imageWidth / 100), its far edge is the origin
plus the padded box size capped at the image dimension (so the region
keeps the full padded size when the origin clamp engages, instead of the
symmetric expand-then-clamp rectangle), the region always lies within the
image bounds, and it coincides with the symmetric expand-then-clamp
rectangle whenever the origin clamp does not engage on either axis. -/
theorem c1_amended (img : ImageSurface) (boxes : List BoundingBox) (cat : String) :
    handleProcess (some img) boxes cat =
      some (boxes.map (cropRegion img), if cat = "" then none else some cat) ∧
    ∀ box ∈ boxes,
      (cropRegion img box).sx =
        max 0 (normToPixel box.xmin img.naturalWidth - cropPadding img) ∧
      (cropRegion img box).sy =
        max 0 (normToPixel box.ymin img.naturalHeight - cropPadding img) ∧
      (cropRegion img box).sx + (cropRegion img box).sw =
        min img.naturalWidth ((cropRegion img box).sx +
          (normToPixel (box.xmax - box.xmin) img.naturalWidth + cropPadding img * 2)) ∧
      (cropRegion img box).sy + (cropRegion img box).sh =
        min img.naturalHeight ((cropRegion img box).sy +
          (normToPixel (box.ymax - box.ymin) img.naturalHeight + cropPadding img * 2)) ∧
      0 ≤ (cropRegion img box).sx ∧
      (cropRegion img box).sx + (cropRegion img box).sw ≤ img.naturalWidth ∧
      0 ≤ (cropRegion img box).sy ∧
      (cropRegion img box).sy + (cropRegion img box).sh ≤ img.naturalHeight ∧
      (cropPadding img ≤ normToPixel box.xmin img.naturalWidth →
        cropPadding img ≤ normToPixel box.ymin img.naturalHeight →
        cropRegion img box = specCropRegion img box) := by
  refine ⟨rfl, ?_⟩
  intro box hmem
  simp only [cropRegion, specCropRegion, normToPixel]
  refine ⟨trivial, trivial, ?_, ?_, le_max_left _ _, ?_, le_max_left _ _, ?_, ?_⟩
  · rw [add_min_sub]
  · rw [add_min_sub]
  · have := min_le_left
      (img.naturalWidth - max 0 (box.xmin / 1000 * img.naturalWidth - cropPadding img))
      ((box.xmax - box.xmin) / 1000 * img.naturalWidth + cropPadding img * 2)
    linarith
  · have := min_le_left
      (img.naturalHeight - max 0 (box.ymin / 1000 * img.naturalHeight - cropPadding img))
      ((box.ymax - box.ymin) / 1000 * img.naturalHeight + cropPadding img * 2)
    linarith
  · intro hxp hyp
    have hsx : max 0 (box.xmin / 1000 * img.naturalWidth - cropPadding img) =
        box.xmin / 1000 * img.naturalWidth - cropPadding img :=
      max_eq_right (by linarith)
    have hsy : max 0 (box.ymin / 1000 * img.naturalHeight - cropPadding img) =
        box.ymin / 1000 * img.naturalHeight - cropPadding img :=
      max_eq_right (by linarith)
    rw [CropRegion.mk.injEq]
    refine ⟨rfl, rfl, ?_, ?_⟩
    · rw [hsx]
      rcases le_total
          (img.naturalWidth - (box.xmin / 1000 * img.naturalWidth - cropPadding img))
          ((box.xmax - box.xmin) / 1000 * img.naturalWidth + cropPadding img * 2) with h | h
      · rw [min_eq_left h, min_eq_left (by linarith)]
      · rw [min_eq_right h, min_eq_right (by linarith)]
        ring
    · rw [hsy]
      rcases le_total
          (img.naturalHeight - (box.ymin / 1000 * img.naturalHeight - cropPadding img))
          ((box.ymax - box.ymin) / 1000 * img.naturalHeight + cropPadding img * 2) with h | h
      · rw [min_eq_left h, min_eq_left (by linarith)]
      · rw [min_eq_right h, min_eq_right (by linarith)]
        ring

/-- Witness for the amended claim C1 at a concrete interior box: the crop
region of the centered 200 by 200 box on the 1000 by 1000 image coincides
with the symmetric expand-then-clamp rectangle. -/
theorem c1_amended_witness :
    cropRegion ⟨1000, 1000⟩ ⟨400, 400, 600, 600⟩ =
      specCropRegion ⟨1000, 1000⟩ ⟨400, 400, 600, 600⟩ := by
  have h := (c1_amended ⟨1000, 1000⟩ [⟨400, 400, 600, 600⟩] "").2
    ⟨400, 400, 600, 600⟩ (by simp)
  exact h.2.2.2.2.2.2.2.2 (by norm_num [normToPixel, cropPadding])
    (by norm_num [normToPixel, cropPadding])

/-- The box list produced by a pointer move is either unchanged or an
update of the selected index by the move or resize transformation. -/
theorem handleMouseMove_boxes_cases (canvasW canvasH x y : ℚ) (s : EditorState) :
    (handleMouseMove canvasW canvasH x y s).boxes = s.boxes ∨
    ∃ i box, s.boxes[i]? = some box ∧
      ((handleMouseMove canvasW canvasH x y s).boxes =
          s.boxes.set i (moveBox box (pixelToNorm (x - s.dragStart.1) canvasW)
            (pixelToNorm (y - s.dragStart.2) canvasH)) ∨
        ∃ h, (handleMouseMove canvasW canvasH x y s).boxes =
          s.boxes.set i (resizeBox box h (clamp1000 (pixelToNorm x canvasW))
            (clamp1000 (pixelToNorm y canvasH)))) := by
  unfold handleMouseMove
  split
  · exact Or.inl rfl
  split
  · exact Or.inl rfl
  rename_i i hi
  split
  · exact Or.inl rfl
  rename_i box hbox
  split
  · exact Or.inr ⟨i, box, hbox, Or.inl rfl⟩
  · split
    · rename_i h hh
      exact Or.inr ⟨i, box, hbox, Or.inr ⟨h, rfl⟩⟩
    · exact Or.inl rfl
  · exact Or.inl rfl

/-- Claim C3 is falsified at a detector-valid skinny box: the box with
xmin 10, xmax 30 (valid per the detector guarantee, but narrower than the
50-unit resize floor) resized with the nw handle toward pointer (0, 0)
yields xmin equal to minus 20, outside the 0 to 1000 range, after a
single resize step. -/
theorem c3_counterexample :
    (handleMouseMove 1000 1000 0 0
        ⟨[⟨100, 10, 300, 30⟩], some 0, "", DragMode.resize,
          some HandlePosition.nw, true, (0, 0)⟩).boxes =
      [⟨0, -20, 300, 30⟩] ∧
    ((0 : ℚ) ≤ 10 ∧ (10 : ℚ) < 30 ∧ (30 : ℚ) ≤ 1000 ∧
      (0 : ℚ) ≤ 100 ∧ (100 : ℚ) < 300 ∧ (300 : ℚ) ≤ 1000) ∧
    ¬ (0 ≤ (-20 : ℚ)) := by
  refine ⟨?_, by norm_num, by norm_num⟩
  rw [handleMouseMove_resize 1000 1000 0 0
    ⟨[⟨100, 10, 300, 30⟩], some 0, "", DragMode.resize,
      some HandlePosition.nw, true, (0, 0)⟩
    0 ⟨100, 10, 300, 30⟩ HandlePosition.nw rfl rfl rfl rfl rfl]
  norm_num [resizeBox, clamp1000, pixelToNorm, HandlePosition.includesW,
    HandlePosition.includesE, HandlePosition.includesN, HandlePosition.includesS]

/-- Claim C3 amended: whenever every box additionally satisfies the
50-unit minimum size on both axes (which holds for the manually added box
and is preserved by all editing operations, but is not guaranteed for raw
detector output), each of the editing operations (pointer move in move or
resize mode, add, delete) keeps every box satisfying xmin strictly below
xmax, ymin strictly below ymax and all coordinates within 0 to 1000. -/
theorem c3_amended (canvasW canvasH x y : ℚ) (s : EditorState)
    (hinv : ∀ b ∈ s.boxes, BoxInv b) :
    (∀ b ∈ (handleMouseMove canvasW canvasH x y s).boxes, BoxInv b) ∧
    (∀ b ∈ (handleAddBox s).boxes, BoxInv b) ∧
    (∀ b ∈ (handleDeleteBox s).boxes, BoxInv b) ∧
    (∀ b : BoundingBox, BoxInv b →
      b.xmin < b.xmax ∧ b.ymin < b.ymax ∧
      0 ≤ b.xmin ∧ b.xmax ≤ 1000 ∧ 0 ≤ b.ymin ∧ b.ymax ≤ 1000) := by
  refine ⟨?_, ?_, ?_, ?_⟩
  · rcases handleMouseMove_boxes_cases canvasW canvasH x y s with
      hcase | ⟨i, box, hbox, hcase | ⟨hh, hcase⟩⟩
    · rw [hcase]
      exact hinv
    · rw [hcase]
      intro b hb
      rcases List.mem_or_eq_of_mem_set hb with hmem | heq
      · exact hinv b hmem
      · subst heq
        exact moveBox_boxInv box _ _ (hinv box (List.getElem?_mem hbox))
    · rw [hcase]
      intro b hb
      rcases List.mem_or_eq_of_mem_set hb with hmem | heq
      · exact hinv b hmem
      · subst heq
        exact resizeBox_boxInv box hh _ _ (hinv box (List.getElem?_mem hbox))
          (clamp1000_nonneg _) (clamp1000_le_top _)
          (clamp1000_nonneg _) (clamp1000_le_top _)
  · intro b hb
    simp only [handleAddBox] at hb
    rcases List.mem_append.mp hb with hmem | hmem
    · exact hinv b hmem
    · have hbeq : b = ⟨400, 400, 600, 600⟩ := by simpa using hmem
      subst hbeq
      refine ⟨by norm_num, by norm_num, by norm_num, by norm_num, by norm_num, by norm_num⟩
  · intro b hb
    unfold handleDeleteBox at hb
    split at hb
    · exact hinv b hb
    · exact hinv b (mem_of_filter_enum s.boxes _ b hb)
  · intro b hb
    obtain ⟨h1, h2, h3, h4, h5, h6⟩ := hb
    exact ⟨by linarith, by linarith, h1, h3, h4, h6⟩

/-- Witness for the amended claim C3: the manually added box of the empty
collection satisfies the invariant. -/
theorem c3_amended_witness : BoxInv ⟨400, 400, 600, 600⟩ := by
  have h := (c3_amended 1000 1000 0 0
    ⟨[], none, "", DragMode.none, none, false, (0, 0)⟩ (by simp)).2.1
  apply h
  simp [handleAddBox]

/-- Claim C5: while a move drag is active, each pointer move preserves the
selected box width and height exactly, even when the clamp at a space
boundary engages; in particular translating the 200-unit-wide box from
xmin 100 by minus 150 units (left edge heading to minus 50) lands at
xmin 0 and xmax 200 exactly. -/
theorem c5_move_preserves_size (canvasW canvasH x y : ℚ) (s : EditorState) (i : ℕ)
    (box : BoundingBox) (hdrag : s.isDragging = true) (hsel : s.selectedIndex = some i)
    (hmode : s.dragMode = DragMode.move) (hbox : s.boxes[i]? = some box)
    (hx : box.xmin ≤ box.xmax) (hy : box.ymin ≤ box.ymax) :
    (∃ box2, (handleMouseMove canvasW canvasH x y s).boxes[i]? = some box2 ∧
      box2.xmax - box2.xmin = box.xmax - box.xmin ∧
      box2.ymax - box2.ymin = box.ymax - box.ymin) ∧
    (moveBox ⟨100, 100, 300, 300⟩ (-150) 0).xmin = 0 ∧
    (moveBox ⟨100, 100, 300, 300⟩ (-150) 0).xmax = 200 := by
  refine ⟨?_, ?_, ?_⟩
  · rw [handleMouseMove_move canvasW canvasH x y s i box hdrag hsel hbox hmode]
    have hlen : i < s.boxes.length := (List.getElem?_eq_some.mp hbox).1
    exact ⟨moveBox box (pixelToNorm (x - s.dragStart.1) canvasW)
        (pixelToNorm (y - s.dragStart.2) canvasH),
      List.getElem?_set_eq_of_lt _ hlen,
      moveBox_width box _ _ hx, moveBox_height box _ _ hy⟩
  · norm_num [moveBox, clamp1000]
  · norm_num [moveBox, clamp1000]

/-- Witness for claim C5 at a concrete drag: the clamped boundary move of
the scenario box keeps xmin 0 and xmax 200. -/
theorem c5_move_witness :
    (moveBox ⟨100, 100, 300, 300⟩ (-150) 0).xmin = 0 ∧
    (moveBox ⟨100, 100, 300, 300⟩ (-150) 0).xmax = 200 := by
  have h := c5_move_preserves_size 1000 1000 0 150
    ⟨[⟨100, 100, 300, 300⟩], some 0, "", DragMode.move, none, true, (150, 150)⟩
    0 ⟨100, 100, 300, 300⟩ rfl rfl rfl rfl (by norm_num) (by norm_num)
  exact ⟨h.2.1, h.2.2⟩

/-- Claim C6: while a resize drag is active, each pointer move sets
exactly the edges named by the handle to the clamped normalized pointer
position floored at 50 units from the opposite edge (n and s drive ymin
and ymax, w and e drive xmin and xmax); in particular dragging the se
handle of the box with xmin 400, ymin 400 anywhere never yields xmax
below 450 or ymax below 450. -/
theorem c6_resize_floor (canvasW canvasH x y : ℚ) (s : EditorState) (i : ℕ)
    (box : BoundingBox) (h : HandlePosition) (hdrag : s.isDragging = true)
    (hsel : s.selectedIndex = some i) (hmode : s.dragMode = DragMode.resize)
    (hhandle : s.dragHandle = some h) (hbox : s.boxes[i]? = some box) :
    (∃ box2, (handleMouseMove canvasW canvasH x y s).boxes[i]? = some box2 ∧
      box2 = resizeBox box h (clamp1000 (pixelToNorm x canvasW))
        (clamp1000 (pixelToNorm y canvasH)) ∧
      (h.includesW = true →
        box2.xmin = min (clamp1000 (pixelToNorm x canvasW)) (box.xmax - 50) ∧
        box2.xmin ≤ box.xmax - 50 ∧ box2.xmax = box.xmax) ∧
      (h.includesE = true →
        box2.xmax = max (clamp1000 (pixelToNorm x canvasW)) (box.xmin + 50) ∧
        box.xmin + 50 ≤ box2.xmax ∧ box2.xmin = box.xmin) ∧
      (h.includesN = true →
        box2.ymin = min (clamp1000 (pixelToNorm y canvasH)) (box.ymax - 50) ∧
        box2.ymin ≤ box.ymax - 50 ∧ box2.ymax = box.ymax) ∧
      (h.includesS = true →
        box2.ymax = max (clamp1000 (pixelToNorm y canvasH)) (box.ymin + 50) ∧
        box.ymin + 50 ≤ box2.ymax ∧ box2.ymin = box.ymin)) ∧
    (∀ nx ny : ℚ,
      450 ≤ (resizeBox ⟨400, 400, 600, 600⟩ HandlePosition.se nx ny).xmax ∧
      450 ≤ (resizeBox ⟨400, 400, 600, 600⟩ HandlePosition.se nx ny).ymax) := by
  constructor
  · rw [handleMouseMove_resize canvasW canvasH x y s i box h hdrag hsel hbox hmode hhandle]
    have hlen : i < s.boxes.length := (List.getElem?_eq_some.mp hbox).1
    refine ⟨resizeBox box h (clamp1000 (pixelToNorm x canvasW))
        (clamp1000 (pixelToNorm y canvasH)),
      List.getElem?_set_eq_of_lt _ hlen, rfl, ?_, ?_, ?_, ?_⟩ <;>
      cases h <;>
        simp [resizeBox, HandlePosition.includesW, HandlePosition.includesE,
          HandlePosition.includesN, HandlePosition.includesS, min_le_left,
          min_le_right, le_max_right, le_max_left]
  · intro nx ny
    constructor <;>
      simp [resizeBox, HandlePosition.includesW, HandlePosition.includesE,
        HandlePosition.includesN, HandlePosition.includesS] <;>
      norm_num [le_max_iff]

/-- Witness for claim C6 at a concrete drag: dragging the se handle of
the centered box all the way to the origin leaves xmax at the floor 450. -/
theorem c6_resize_witness :
    450 ≤ (resizeBox ⟨400, 400, 600, 600⟩ HandlePosition.se 0 0).xmax ∧
    450 ≤ (resizeBox ⟨400, 400, 600, 600⟩ HandlePosition.se 0 0).ymax := by
  have h := c6_resize_floor 1000 1000 0 0
    ⟨[⟨400, 400, 600, 600⟩], some 0, "", DragMode.resize,
      some HandlePosition.se, true, (0, 0)⟩
    0 ⟨400, 400, 600, 600⟩ HandlePosition.se rfl rfl rfl rfl rfl
  exact h.2 0 0

/-- Claim C7: on pointer-down the corner handles of the selected box are
tested first and a handle hit starts a resize regardless of any body hit;
a reported handle is within the tolerance (canvasW / 1000) * 40 of its
corner on both axes and no handle is reported only when no corner is
within tolerance; with no selection the resulting selection is the body
hit, which is exactly the topmost (greatest-index) box whose inclusive
pixel rectangle contains the pointer. -/
theorem c7_hit_testing (canvasW canvasH x y : ℚ) (s : EditorState) :
    (∀ i box hp, s.selectedIndex = some i → s.boxes[i]? = some box →
      getHandleHit canvasW canvasH box x y = some hp →
      handleMouseDown canvasW canvasH x y s =
        { s with dragMode := DragMode.resize, dragHandle := some hp,
                 isDragging := true }) ∧
    (∀ box hp, getHandleHit canvasW canvasH box x y = some hp →
      handleHitTest canvasW canvasH box x y hp) ∧
    (∀ box, getHandleHit canvasW canvasH box x y = none →
      ∀ hp, ¬ handleHitTest canvasW canvasH box x y hp) ∧
    (s.selectedIndex = none →
      (handleMouseDown canvasW canvasH x y s).selectedIndex =
        bodyHit canvasW canvasH x y s.boxes) ∧
    (∀ j, bodyHit canvasW canvasH x y s.boxes = some j ↔
      j < s.boxes.length ∧
      (∃ b, s.boxes[j]? = some b ∧ containsPt canvasW canvasH x y b) ∧
      ∀ k, j < k → k < s.boxes.length → ∀ b, s.boxes[k]? = some b →
        ¬ containsPt canvasW canvasH x y b) := by
  refine ⟨?_, ?_, ?_, ?_, fun j => bodyHit_eq_some canvasW canvasH x y s.boxes j⟩
  · intro i box hp hsel hbox hhit
    simp only [handleMouseDown, hsel, hbox, hhit]
  · intro box hp hhit
    rw [getHandleHit_eq_find] at hhit
    have hfound := List.find?_some hhit
    simpa using hfound
  · intro box hnone hp
    rw [getHandleHit_eq_find] at hnone
    have hall := List.find?_eq_none.mp hnone
    have hmem : hp ∈ [HandlePosition.nw, HandlePosition.ne, HandlePosition.sw,
        HandlePosition.se] := by
      cases hp <;> simp
    have hneg := hall hp hmem
    simpa using hneg
  · intro hsel
    simp only [handleMouseDown, hsel]
    cases hbh : bodyHit canvasW canvasH x y s.boxes <;> simp [hbh]

/-- Witness for claim C7 at a concrete overlap: with the boxes A then B
overlapping at pointer (250, 250) and nothing selected, pointer-down
selects B (index 1). -/
theorem c7_hit_witness :
    (handleMouseDown 1000 1000 250 250
        ⟨[⟨100, 100, 300, 300⟩, ⟨200, 200, 400, 400⟩], none, "",
          DragMode.none, none, false, (0, 0)⟩).selectedIndex = some 1 := by
  have h := (c7_hit_testing 1000 1000 250 250
    ⟨[⟨100, 100, 300, 300⟩, ⟨200, 200, 400, 400⟩], none, "",
      DragMode.none, none, false, (0, 0)⟩).2.2.2.1 rfl
  rw [h]
  show bodyHitAux 1000 1000 250 250
    [⟨100, 100, 300, 300⟩, ⟨200, 200, 400, 400⟩] 2 = some 1
  norm_num [bodyHitAux, containsPt, normToPixel]

/-- Claim C10: handle hit-testing follows the fixed priority order nw,
ne, sw, se: the reported handle is always the first proximity match in
that order, and at a pointer within tolerance of both the nw and the ne
corner of a 50-unit box the reported handle is nw. -/
theorem c10_handle_priority :
    (∀ (canvasW canvasH : ℚ) (box : BoundingBox) (x y : ℚ),
      getHandleHit canvasW canvasH box x y =
        [HandlePosition.nw, HandlePosition.ne, HandlePosition.sw,
          HandlePosition.se].find?
          (fun hp => decide (handleHitTest canvasW canvasH box x y hp))) ∧
    (handleHitTest 1000 1000 ⟨0, 0, 50, 50⟩ 25 25 HandlePosition.nw ∧
      handleHitTest 1000 1000 ⟨0, 0, 50, 50⟩ 25 25 HandlePosition.ne ∧
      getHandleHit 1000 1000 ⟨0, 0, 50, 50⟩ 25 25 = some HandlePosition.nw) := by
  refine ⟨fun canvasW canvasH box x y => getHandleHit_eq_find canvasW canvasH box x y,
    ?_, ?_, ?_⟩
  · norm_num [handleHitTest, normToPixel, abs_lt]
  · norm_num [handleHitTest, normToPixel, abs_lt]
  · simp only [getHandleHit]
    rw [if_pos (by norm_num [normToPixel, abs_lt])]

end CookieVote
